import Mathlib

/-!
Verification of the asvdb benchmark-results store (`src/asvdb/asvdb.py`).

The development shallowly embeds the pieces of the program that the claims
concern:

* `sanitizeArgNameValues` — `BenchmarkResult.__sanitizeArgNameValues`
  (Python values modelled by the small dynamic-value type `PyVal`);
* `cartProd`, `merge` — the result-grid maintenance of
  `ASVDb.__updateResultJson` (the flat `result` array aligned to the
  cartesian product of the `params` columns);
* `updateBenchmarkJson` — the `benchmarks.json` catalog update of
  `ASVDb.__updateBenchmarkJson`, including its arity check;
* `confBranchesUpdate` — the `branches` accumulation in `ASVDb.__init__`;
* `updateOtherLockfileTimes` / `getLockAux` — the directory-marker lock
  protocol of `ASVDb.__updateOtherLockfileTimes` and `ASVDb.__getLock`,
  driven by an explicit schedule of directory scans;
* `addResult` — the orchestration of `ASVDb.addResult`.

Python dictionaries are modelled as association lists with
insert-overwrite semantics (`pyGet`, `pySet`, `pySetdefault`,
`pyDictOfZip`); Python `None` results are modelled with `Option`;
a Python exception propagating to the caller is modelled with
`Except`/`PyErr`.
-/

namespace Asvdb

/-- Python exceptions that the embedded code can raise. -/
inductive PyErr
  | valueError (msg : String)
  | indexError
  | nameError (missingGlobal : String)
deriving DecidableEq

/-! ### Python dict primitives (association lists, insert-overwrite) -/

/-- `d.get(k)` / `d[k]` lookup: first (unique) binding of `k`. -/
def pyGet {K V : Type} [DecidableEq K] (k : K) : List (K × V) → Option V
  | [] => Option.none
  | p :: t => if p.1 = k then some p.2 else pyGet k t

/-- `d[k] = v`: overwrite the binding of `k` in place, or append it. -/
def pySet {K V : Type} [DecidableEq K] (k : K) (v : V) : List (K × V) → List (K × V)
  | [] => [(k, v)]
  | p :: t => if p.1 = k then (k, v) :: t else p :: pySet k v t

/-- `d.setdefault(k, dflt)`: return the value for `k` (inserting `dflt`
if absent) together with the possibly-extended dict. -/
def pySetdefault {K V : Type} [DecidableEq K] (k : K) (dflt : V) (m : List (K × V)) :
    V × List (K × V) :=
  match pyGet k m with
  | some v => (v, m)
  | Option.none => (dflt, m ++ [(k, dflt)])

/-- `dict(zip(ks, vs))`: pair the two lists up to the shorter one and
insert left to right (later duplicate keys overwrite earlier ones). -/
def pyDictOfZip {K V : Type} [DecidableEq K] (ks : List K) (vs : List V) : List (K × V) :=
  (ks.zip vs).foldl (fun m p => pySet p.1 p.2 m) []

/-- `list.index`-style first index of an element (used only to state
"the entry at that combination's product-order index"). -/
def pyIndexOf {α : Type} [DecidableEq α] (a : α) : List α → Nat
  | [] => 0
  | b :: t => if b = a then 0 else pyIndexOf a t + 1

/-! ### itertools.product -/

/-- `list(itertools.product(*cols))` in the fixed nested-loop order:
leftmost column slowest-varying. -/
def cartProd {α : Type} : List (List α) → List (List α)
  | [] => [[]]
  | c :: rest => c.flatMap fun v => (cartProd rest).map fun t => v :: t

/-! ### ResultGrid: `ASVDb.__updateResultJson`, lines 290-327 -/

/-- One entry of the `results` dict of a result-grid document:
`params` is the list of per-parameter-position value columns, `result`
the flat result array (`Option.none` models JSON null). -/
structure GridEntry (ρ : Type) where
  params : List (List String)
  result : List (Option ρ)
deriving DecidableEq

/-- The dedup-append loop
`for i in range(len(cols)): if pv[i] not in cols[i]: cols[i].append(pv[i])`
(defined when `pv` has at least `cols.length` entries; `zip` truncates
at `cols`). -/
def appendMissing {α : Type} [DecidableEq α] (cols : List (List α)) (pv : List α) :
    List (List α) :=
  (cols.zip pv).map fun cv => if cv.2 ∈ cv.1 then cv.1 else cv.1 ++ [cv.2]

/-- The tuple→result association `__updateResultJson` builds: on the
new-name branch the single pair `(pv, r)`; otherwise
`paramsResultMap = dict(zip(paramsCartProd, existingResultValueList))`
followed by `paramsResultMap[newResultParamValues] = result`.  Note the
product is taken over the columns *after* the in-place dedup-appends
(the code mutates `existingParamValuesList` before computing
`paramsCartProd`). -/
def mergeAssoc {ρ : Type} (g : GridEntry ρ) (pv : List String) (r : Option ρ) :
    List (List String × Option ρ) :=
  if g.params.length = 0 then [(pv, r)]
  else pySet pv r (pyDictOfZip (cartProd (appendMissing g.params pv)) g.result)

/-- `ASVDb.__updateResultJson`, the grid-maintenance core: either the
new-name branch (singleton columns, one-element result list) or the
re-flatten branch.  Returns `Option.none` when Python would raise
`IndexError` (`newResultParamValues[i]` out of range in the dedup-append
loop, i.e. fewer supplied values than existing columns). -/
def merge {ρ : Type} (g : GridEntry ρ) (pv : List String) (r : Option ρ) :
    Option (GridEntry ρ) :=
  if g.params.length = 0 then
    some { params := pv.map fun v => [v], result := [r] }
  else if pv.length < g.params.length then Option.none
  else
    let newParams := appendMissing g.params pv
    some { params := newParams,
           result := (cartProd newParams).map fun t =>
             (pyGet t (mergeAssoc g pv r)).getD Option.none }

/-- Modelled from the spec (§4.4 steps 3-5), for comparison with `merge`:
the tuple→result mapping is built from the cartesian product of the
**pre-update** columns zipped against the pre-update `result`, the entry
for `pv` is overwritten with `r`, and the new flat array is read off the
post-update product. -/
def mergeSpecPre {ρ : Type} (g : GridEntry ρ) (pv : List String) (r : Option ρ) :
    Option (GridEntry ρ) :=
  if g.params.length = 0 then
    some { params := pv.map fun v => [v], result := [r] }
  else if pv.length < g.params.length then Option.none
  else
    let m := pySet pv r (pyDictOfZip (cartProd g.params) g.result)
    let newParams := appendMissing g.params pv
    some { params := newParams,
           result := (cartProd newParams).map fun t => (pyGet t m).getD Option.none }

/-- The stored value at the product-order index of the combination `pv`
(the observer used to state the rerun/overwrite property). -/
def resultAt {ρ : Type} (g : GridEntry ρ) (pv : List String) : Option ρ :=
  (g.result[pyIndexOf pv (cartProd g.params)]?).getD Option.none

/-! ### Helper lemmas about the dict and product primitives -/

theorem pyGet_pySet_self {K V : Type} [DecidableEq K] (k : K) (v : V) (m : List (K × V)) :
    pyGet k (pySet k v m) = some v := by
  induction m with
  | nil => simp [pySet, pyGet]
  | cons p t ih =>
    by_cases h : p.1 = k
    · simp [pySet, pyGet, h]
    · simp [pySet, pyGet, h, ih]

theorem get?_pyIndexOf {α : Type} [DecidableEq α] {a : α} {l : List α} (h : a ∈ l) :
    l[pyIndexOf a l]? = some a := by
  induction l with
  | nil => cases h
  | cons b t ih =>
    by_cases hb : b = a
    · simp [pyIndexOf, hb]
    · have ht : a ∈ t := by
        rcases List.mem_cons.mp h with h' | h'
        · exact absurd h'.symm hb
        · exact h'
      simp [pyIndexOf, hb, ih ht]

theorem cartProd_length {α : Type} (cols : List (List α)) :
    (cartProd cols).length = (cols.map List.length).prod := by
  induction cols with
  | nil => rfl
  | cons c rest ih =>
    simp only [cartProd, List.map_cons, List.prod_cons]
    induction c with
    | nil => simp
    | cons v c' ihc =>
      simp_all [List.flatMap_cons, Nat.succ_mul, Nat.add_comm]

theorem mem_cartProd {α : Type} {cols : List (List α)} {t : List α} :
    t ∈ cartProd cols ↔ List.Forall₂ (fun v c => v ∈ c) t cols := by
  induction cols generalizing t with
  | nil =>
    simp [cartProd, List.forall₂_nil_right_iff]
  | cons c rest ih =>
    simp only [cartProd, List.mem_flatMap, List.mem_map, List.forall₂_cons_right_iff]
    constructor
    · rintro ⟨v, hv, t', ht', rfl⟩
      exact ⟨v, t', hv, ih.mp ht', rfl⟩
    · rintro ⟨v, t', hv, ht', rfl⟩
      exact ⟨v, hv, t', ih.mpr ht', rfl⟩

theorem cartProd_singletons {α : Type} (pv : List α) :
    cartProd (pv.map fun v => [v]) = [pv] := by
  induction pv with
  | nil => rfl
  | cons v pv' ih => simp [cartProd, ih]

theorem forall₂_mem_singletons {α : Type} (pv : List α) :
    List.Forall₂ (fun v c => v ∈ c) pv (pv.map fun v => [v]) := by
  induction pv with
  | nil => exact List.Forall₂.nil
  | cons v pv' ih => exact List.Forall₂.cons (List.mem_singleton.mpr rfl) ih

theorem appendMissing_forall₂ {α : Type} [DecidableEq α] :
    ∀ (cols : List (List α)) (pv : List α), pv.length = cols.length →
      List.Forall₂ (fun v c => v ∈ c) pv (appendMissing cols pv)
  | [], [], _ => List.Forall₂.nil
  | c :: cols', v :: pv', h => by
    have h' : pv'.length = cols'.length := by simpa using h
    have tail := appendMissing_forall₂ cols' pv' h'
    by_cases hv : v ∈ c
    · exact List.Forall₂.cons (by simp [appendMissing, hv])
        (by simpa [appendMissing] using tail)
    · exact List.Forall₂.cons (by simp [appendMissing, hv])
        (by simpa [appendMissing] using tail)

theorem appendMissing_of_forall₂ {α : Type} [DecidableEq α]
    {cols : List (List α)} {pv : List α}
    (h : List.Forall₂ (fun v c => v ∈ c) pv cols) : appendMissing cols pv = cols := by
  induction h with
  | nil => rfl
  | cons hv _ ih =>
    simp_all [appendMissing, hv]

theorem appendMissing_length {α : Type} [DecidableEq α]
    (cols : List (List α)) (pv : List α) (h : cols.length ≤ pv.length) :
    (appendMissing cols pv).length = cols.length := by
  simp [appendMissing, List.length_zip, Nat.min_eq_left h]

/-! ### Shared structural lemmas about `merge` -/

/-- Shape of any successful `merge`: the new flat array is read off the
post-update product from the association `mergeAssoc`, and its length is
the product of the post-update column lengths. -/
theorem merge_shape {ρ : Type} (g : GridEntry ρ) (pv : List String) (r : Option ρ)
    (g' : GridEntry ρ) (h : merge g pv r = some g') :
    g'.result.length = (g'.params.map List.length).prod ∧
    g'.result = (cartProd g'.params).map fun t =>
      (pyGet t (mergeAssoc g pv r)).getD Option.none := by
  by_cases h0 : g.params.length = 0
  · simp only [merge, h0, if_true, eq_self_iff_true, if_pos] at h
    obtain rfl := Option.some.inj h
    refine ⟨?_, ?_⟩
    · show (1 : Nat) = _
      rw [← cartProd_length, cartProd_singletons]
      rfl
    · show [r] = _
      rw [cartProd_singletons]
      simp [mergeAssoc, h0, pyGet]
  · by_cases h1 : pv.length < g.params.length
    · simp [merge, h0, h1] at h
    · simp only [merge, h0, h1, if_false] at h
      obtain rfl := Option.some.inj h
      refine ⟨?_, rfl⟩
      rw [List.length_map, cartProd_length]

/-- After any successful `merge` whose call was well-arity
(`g.params = []` or `pv` as long as the columns), every supplied value
sits in its post-update column. -/
theorem merge_forall₂ {ρ : Type} {g : GridEntry ρ} {pv : List String} {r : Option ρ}
    {g' : GridEntry ρ}
    (harity : g.params = [] ∨ pv.length = g.params.length)
    (h : merge g pv r = some g') :
    List.Forall₂ (fun v c => v ∈ c) pv g'.params := by
  by_cases h0 : g.params.length = 0
  · simp only [merge, h0, if_true, eq_self_iff_true, if_pos] at h
    obtain rfl := Option.some.inj h
    exact forall₂_mem_singletons pv
  · have hlen : pv.length = g.params.length := by
      rcases harity with h' | h'
      · exact absurd (by simp [h']) h0
      · exact h'
    have h1 : ¬ pv.length < g.params.length := by omega
    simp only [merge, h0, h1, if_false] at h
    obtain rfl := Option.some.inj h
    exact appendMissing_forall₂ g.params pv hlen

/-- `merge` into columns that already contain every supplied value leaves
the columns unchanged and re-flattens from the overwritten association. -/
theorem merge_of_forall₂ {ρ : Type} (cols : List (List String)) (res : List (Option ρ))
    {pv : List String} (r : Option ρ) (hne : cols.length ≠ 0)
    (hf : List.Forall₂ (fun v c => v ∈ c) pv cols) :
    merge ⟨cols, res⟩ pv r =
      some ⟨cols, (cartProd cols).map fun t =>
        (pyGet t (pySet pv r (pyDictOfZip (cartProd cols) res))).getD Option.none⟩ := by
  have hlen : pv.length = cols.length := hf.length_eq
  have hnl : ¬ pv.length < cols.length := by omega
  have hap : appendMissing cols pv = cols := appendMissing_of_forall₂ hf
  simp [merge, mergeAssoc, hne, hnl, hap]

/-- Reading the rebuilt flat array at the product-order index of a tuple
that occurs in the product recovers that tuple's association entry. -/
theorem resultAt_rebuilt {ρ : Type} (cols : List (List String)) (pv : List String)
    (m : List (List String × Option ρ)) (hmem : pv ∈ cartProd cols) :
    resultAt ⟨cols, (cartProd cols).map fun t => (pyGet t m).getD Option.none⟩ pv
      = (pyGet pv m).getD Option.none := by
  unfold resultAt
  rw [show (⟨cols, (cartProd cols).map fun t => (pyGet t m).getD Option.none⟩ :
        GridEntry ρ).result = (cartProd cols).map fun t => (pyGet t m).getD Option.none
      from rfl,
    List.getElem?_map, get?_pyIndexOf hmem]
  rfl

/-! ### Claim theorems about the result grid -/

/-- C2: after every write performed by `__updateResultJson` — the
new-name branch as well as the re-flatten branch — the flat `result`
array has length equal to the product of the column lengths, and its
i-th entry is exactly the value the merge's tuple→result association
assigns to the i-th tuple of the cartesian product of the (post-update)
columns in nested-loop order. -/
theorem merge_length_eq_product {ρ : Type} (g : GridEntry ρ) (pv : List String)
    (r : Option ρ) (g' : GridEntry ρ) (h : merge g pv r = some g') :
    g'.result.length = (g'.params.map List.length).prod ∧
    g'.result = (cartProd g'.params).map fun t =>
      (pyGet t (mergeAssoc g pv r)).getD Option.none :=
  merge_shape g pv r g' h

/-- Witness for `merge_length_eq_product` at a concrete merge. -/
theorem merge_length_eq_product_witness :
    (⟨[["a"], ["b", "c", "d"]], [some 1, some 2, some 3]⟩ : GridEntry Nat).result.length =
      ((⟨[["a"], ["b", "c", "d"]], [some 1, some 2, some 3]⟩ : GridEntry Nat).params.map
        List.length).prod ∧
    (⟨[["a"], ["b", "c", "d"]], [some 1, some 2, some 3]⟩ : GridEntry Nat).result =
      (cartProd (⟨[["a"], ["b", "c", "d"]], [some 1, some 2, some 3]⟩ :
        GridEntry Nat).params).map fun t =>
        (pyGet t (mergeAssoc (⟨[["a"], ["b", "c"]], [some 1, some 2]⟩ : GridEntry Nat)
          ["a", "d"] (some 3))).getD Option.none :=
  merge_length_eq_product ⟨[["a"], ["b", "c"]], [some 1, some 2]⟩ ["a", "d"] (some 3)
    ⟨[["a"], ["b", "c", "d"]], [some 1, some 2, some 3]⟩ rfl

/-- C5: the two worked examples of the spec, for arbitrary result values:
merging `("a","d") ↦ r3` into columns `[["a"],["b","c"]]` with results
`[r1, r2]` yields columns `[["a"],["b","c","d"]]` and results
`[r1, r2, r3]`; then merging `("x","b") ↦ r4` yields columns
`[["a","x"],["b","c","d"]]` and results `[r1, r2, r3, r4, null, null]`
in product order. -/
theorem merge_spec_examples {ρ : Type} (r1 r2 r3 r4 : Option ρ) :
    merge ⟨[["a"], ["b", "c"]], [r1, r2]⟩ ["a", "d"] r3 =
      some ⟨[["a"], ["b", "c", "d"]], [r1, r2, r3]⟩ ∧
    merge ⟨[["a"], ["b", "c", "d"]], [r1, r2, r3]⟩ ["x", "b"] r4 =
      some ⟨[["a", "x"], ["b", "c", "d"]],
        [r1, r2, r3, r4, Option.none, Option.none]⟩ :=
  ⟨rfl, rfl⟩

/-- C1 (failing input): `__updateResultJson` mutates the columns in place
*before* computing `paramsCartProd`, so the tuple→result mapping is
zipped from the **post-update** product, not the pre-update product the
comments and the spec describe.  On columns `[["a","x"],["b","c"]]` with
results `[r1, r2, r3, r4]`, merging `("a","d") ↦ r5` therefore pairs
`r3` with `("a","d")` and `r4` with `("x","b")`: the code produces
`[r1, r2, r5, r4, null, null]`, while the claimed pre-update mapping
(`mergeSpecPre`) produces `[r1, r2, r5, r3, r4, null]`. -/
theorem merge_postupdate_mapping_bug :
    merge (ρ := Nat) ⟨[["a", "x"], ["b", "c"]], [some 1, some 2, some 3, some 4]⟩
        ["a", "d"] (some 5) =
      some ⟨[["a", "x"], ["b", "c", "d"]],
        [some 1, some 2, some 5, some 4, Option.none, Option.none]⟩ ∧
    mergeSpecPre (ρ := Nat) ⟨[["a", "x"], ["b", "c"]], [some 1, some 2, some 3, some 4]⟩
        ["a", "d"] (some 5) =
      some ⟨[["a", "x"], ["b", "c", "d"]],
        [some 1, some 2, some 5, some 3, some 4, Option.none]⟩ ∧
    merge (ρ := Nat) ⟨[["a", "x"], ["b", "c"]], [some 1, some 2, some 3, some 4]⟩
        ["a", "d"] (some 5) ≠
      mergeSpecPre (ρ := Nat) ⟨[["a", "x"], ["b", "c"]], [some 1, some 2, some 3, some 4]⟩
        ["a", "d"] (some 5) := by
  refine ⟨rfl, rfl, ?_⟩
  decide

/-- C6: writing the same parameter combination again overwrites in place:
the columns do not change, the flat array does not grow (its length stays
exactly the product of the column lengths), and the entry at the
combination's product-order index is the most recently written value. -/
theorem merge_overwrite_in_place {ρ : Type} (g : GridEntry ρ) (pv : List String)
    (r1 r2 : Option ρ) (g1 g2 : GridEntry ρ)
    (harity : g.params = [] ∨ pv.length = g.params.length)
    (h1 : merge g pv r1 = some g1) (h2 : merge g1 pv r2 = some g2) :
    g2.params = g1.params ∧ g2.result.length = g1.result.length ∧
    g2.result.length = (g2.params.map List.length).prod ∧
    resultAt g2 pv = r2 := by
  have hf1 : List.Forall₂ (fun v c => v ∈ c) pv g1.params := merge_forall₂ harity h1
  have hlen1 : g1.result.length = (g1.params.map List.length).prod :=
    (merge_shape g pv r1 g1 h1).1
  by_cases hz : g1.params.length = 0
  · have hpv : pv = [] := List.length_eq_zero.mp (hf1.length_eq.trans hz)
    have hp1 : g1.params = [] := List.length_eq_zero.mp hz
    subst hpv
    simp only [merge, hz, if_true, eq_self_iff_true, if_pos] at h2
    obtain rfl := Option.some.inj h2
    refine ⟨by simp [hp1], ?_, ?_, ?_⟩
    · show (1 : Nat) = _
      rw [hlen1, hp1]
      rfl
    · rfl
    · rfl
  · have h2' := merge_of_forall₂ g1.params g1.result r2 hz hf1
    rw [show (⟨g1.params, g1.result⟩ : GridEntry ρ) = g1 from rfl, h2] at h2'
    obtain rfl := Option.some.inj h2'.symm
    refine ⟨rfl, ?_, ?_, ?_⟩
    · show (List.map _ _).length = _
      rw [List.length_map, cartProd_length, hlen1]
    · show (List.map _ _).length = _
      rw [List.length_map, cartProd_length]
    · rw [resultAt_rebuilt _ _ _ (mem_cartProd.mpr hf1), pyGet_pySet_self]
      rfl

/-- Witness for `merge_overwrite_in_place`: rewriting `("a","b")` twice. -/
theorem merge_overwrite_in_place_witness :
    (⟨[["a"], ["b"]], [some 2]⟩ : GridEntry Nat).params =
      (⟨[["a"], ["b"]], [some 1]⟩ : GridEntry Nat).params ∧
    (⟨[["a"], ["b"]], [some 2]⟩ : GridEntry Nat).result.length =
      (⟨[["a"], ["b"]], [some 1]⟩ : GridEntry Nat).result.length ∧
    (⟨[["a"], ["b"]], [some 2]⟩ : GridEntry Nat).result.length =
      ((⟨[["a"], ["b"]], [some 2]⟩ : GridEntry Nat).params.map List.length).prod ∧
    resultAt (⟨[["a"], ["b"]], [some 2]⟩ : GridEntry Nat) ["a", "b"] = some 2 :=
  merge_overwrite_in_place ⟨[["a"], ["b"]], [some 0]⟩ ["a", "b"] (some 1) (some 2)
    ⟨[["a"], ["b"]], [some 1]⟩ ⟨[["a"], ["b"]], [some 2]⟩ (Or.inr rfl) rfl rfl

/-! ### BenchmarkResult.__sanitizeArgNameValues, lines 14-23 -/

/-- A small model of the dynamically typed Python values a caller can put
into `argNameValuePairs`. -/
inductive PyVal
  | pnone
  | pstr (s : String)
  | pint (n : Int)
deriving DecidableEq

/-- Python `str(...)` on the modelled values. -/
def pyStr : PyVal → String
  | PyVal.pnone => "None"
  | PyVal.pstr s => s
  | PyVal.pint n => toString n

/-- Whether a stored value is a Python string. -/
def PyVal.isStr : PyVal → Bool
  | PyVal.pstr _ => true
  | _ => false

/-- `BenchmarkResult.__sanitizeArgNameValues`: `None` pairs become `[]`;
otherwise each pair `(n, v)` becomes `(n, str(v if v is not None else "NaN"))`
— the name is passed through unchanged. -/
def sanitizeArgNameValues (argNameValuePairs : Option (List (PyVal × PyVal))) :
    List (PyVal × PyVal) :=
  match argNameValuePairs with
  | Option.none => []
  | some ps => ps.map fun p =>
      (p.1, PyVal.pstr (pyStr (if p.2 = PyVal.pnone then PyVal.pstr "NaN" else p.2)))

/-- C8 (counterexample): the sanitizer does not render parameter *names*
as strings — a non-string name (here the integer `3`) is stored
unchanged, so "both the stored name and the stored value of every pair
are strings" is false. -/
theorem sanitize_keeps_nonstring_name :
    sanitizeArgNameValues (some [(PyVal.pint 3, PyVal.pstr "x")]) =
      [(PyVal.pint 3, PyVal.pstr "x")] ∧
    ((sanitizeArgNameValues (some [(PyVal.pint 3, PyVal.pstr "x")])).map fun p =>
      p.1.isStr) = [false] := by
  exact ⟨rfl, rfl⟩

/-- C8 (amended): every stored *value* is a string — the string rendering
of the supplied value, with `None` becoming the literal `"NaN"` — a
`None` pairs argument yields the empty list, and the names are stored
unchanged. -/
theorem sanitize_values_are_strings :
    sanitizeArgNameValues Option.none = [] ∧
    (∀ ps p, p ∈ sanitizeArgNameValues (some ps) → p.2.isStr = true) ∧
    (∀ ps, (sanitizeArgNameValues (some ps)).map Prod.fst = ps.map Prod.fst) ∧
    (∀ ps n, (n, PyVal.pnone) ∈ ps →
      (n, PyVal.pstr "NaN") ∈ sanitizeArgNameValues (some ps)) ∧
    (∀ ps n v, (n, v) ∈ ps → v ≠ PyVal.pnone →
      (n, PyVal.pstr (pyStr v)) ∈ sanitizeArgNameValues (some ps)) := by
  refine ⟨rfl, ?_, ?_, ?_, ?_⟩
  · intro ps p hp
    simp only [sanitizeArgNameValues, List.mem_map] at hp
    obtain ⟨q, _, rfl⟩ := hp
    rfl
  · intro ps
    simp [sanitizeArgNameValues]
  · intro ps n hmem
    simp only [sanitizeArgNameValues, List.mem_map]
    exact ⟨(n, PyVal.pnone), hmem, rfl⟩
  · intro ps n v hmem hv
    simp only [sanitizeArgNameValues, List.mem_map]
    refine ⟨(n, v), hmem, ?_⟩
    simp [hv]

/-- Witness for `sanitize_values_are_strings`: a `None` value is stored
as the string `"NaN"`. -/
theorem sanitize_values_are_strings_witness :
    (PyVal.pstr "dataset", PyVal.pstr "NaN") ∈
      sanitizeArgNameValues (some [(PyVal.pstr "dataset", PyVal.pnone)]) :=
  sanitize_values_are_strings.2.2.2.1 [(PyVal.pstr "dataset", PyVal.pnone)]
    (PyVal.pstr "dataset") (by decide)

/-! ### ConfigDocument branches: `ASVDb.__init__`, lines 87-88 -/

/-- Lines 87-88 of `ASVDb.__init__`:
`currentBranches = d.get("branches", [])` followed by
`d["branches"] = currentBranches + [b for b in (branches or []) if b not in currentBranches]`.
`stored` is the branches list found in the conf document on disk
(`[]` when the document or key is absent). -/
def confBranchesUpdate (stored : List String) (branches : Option (List String)) :
    List String :=
  stored ++ (branches.getD []).filter fun b => ¬ b ∈ stored

/-- Fuel-driven recursion for `firstSeenDedup` (the fuel strictly bounds
the list length, so the `0, _ :: _` case is unreachable). -/
def firstSeenDedupGo : Nat → List String → List String
  | 0, _ => []
  | _ + 1, [] => []
  | fuel + 1, b :: t => b :: firstSeenDedupGo fuel (t.filter fun x => ¬ x = b)

/-- Modelled from the spec's words "the union of branches, in first-seen
order, without duplicates" (for comparison with `confBranchesUpdate`):
keep the first occurrence of every element. -/
def firstSeenDedup (l : List String) : List String :=
  firstSeenDedupGo l.length l

theorem firstSeenDedupGo_of_nodup :
    ∀ (fuel : Nat) (l : List String), l.length ≤ fuel → l.Nodup →
      firstSeenDedupGo fuel l = l
  | 0, [], _, _ => rfl
  | _ + 1, [], _, _ => rfl
  | 0, _ :: _, hl, _ => by simp at hl
  | fuel + 1, b :: t, hl, h => by
    obtain ⟨hb, ht⟩ := List.nodup_cons.mp h
    rw [firstSeenDedupGo]
    rw [List.filter_eq_self.mpr fun x hx => by
      simp only [decide_eq_true_eq]
      exact fun hxb => hb (hxb ▸ hx)]
    rw [firstSeenDedupGo_of_nodup fuel t (by simpa using hl) ht]

theorem firstSeenDedup_of_nodup {l : List String} (h : l.Nodup) :
    firstSeenDedup l = l :=
  firstSeenDedupGo_of_nodup l.length l le_rfl h

/-- C9 (counterexample): a branch list that itself contains a duplicate
is stored with the duplicate — the dedup filter only checks against the
*previously stored* branches, not within the supplied list.  Creating the
store with branches `["a","a"]` and re-running creation with `["b"]`
stores `["a","a","b"]`, which is not duplicate-free (and is not the
first-seen union `["a","b"]`). -/
theorem confBranches_duplicate_counterexample :
    confBranchesUpdate (confBranchesUpdate [] (some ["a", "a"])) (some ["b"]) =
      ["a", "a", "b"] ∧
    ¬ (confBranchesUpdate (confBranchesUpdate [] (some ["a", "a"])) (some ["b"])).Nodup ∧
    confBranchesUpdate (confBranchesUpdate [] (some ["a", "a"])) (some ["b"]) ≠
      firstSeenDedup (["a", "a"] ++ ["b"]) := by
  refine ⟨rfl, ?_, ?_⟩ <;> decide

theorem confBranches_concat_dedup_go :
    ∀ (fuel : Nat) (b1 b2 : List String), (b1 ++ b2).length ≤ fuel →
      b1.Nodup → b2.Nodup →
      b1 ++ b2.filter (fun b => ¬ b ∈ b1) = firstSeenDedupGo fuel (b1 ++ b2)
  | fuel, [], b2, hl, _, h2 => by
    rw [List.nil_append, List.nil_append,
      List.filter_eq_self.mpr fun x _ => by simp,
      firstSeenDedupGo_of_nodup fuel b2 (by simpa using hl) h2]
  | 0, a :: b1', b2, hl, _, _ => by
    simp at hl
  | fuel + 1, a :: b1', b2, hl, h1, h2 => by
    obtain ⟨ha, h1'⟩ := List.nodup_cons.mp h1
    rw [List.cons_append,
      show firstSeenDedupGo (fuel + 1) ((a :: b1') ++ b2) =
          a :: firstSeenDedupGo fuel ((b1' ++ b2).filter fun x => ¬ x = a) from rfl,
      List.filter_append]
    have hfb1 : List.filter (fun x => decide ¬ x = a) b1' = b1' :=
      List.filter_eq_self.mpr fun x hx => by
        simp only [decide_eq_true_eq]
        exact fun hxa => ha (hxa ▸ hx)
    rw [hfb1]
    have hlen : (b1' ++ b2.filter fun x => ¬ x = a).length ≤ fuel := by
      have hf := List.length_filter_le (fun x => decide ¬ x = a) b2
      simp only [List.length_append, List.length_cons] at hl ⊢
      omega
    have key := confBranches_concat_dedup_go fuel b1' (b2.filter fun x => ¬ x = a)
      hlen h1' (h2.filter _)
    rw [← key, List.filter_filter]
    congr 1
    congr 1
    apply List.filter_congr
    intro x _
    by_cases hxa : x = a <;> by_cases hxb : x ∈ b1' <;> simp [hxa, hxb]

theorem confBranches_concat_dedup (b1 b2 : List String)
    (h1 : b1.Nodup) (h2 : b2.Nodup) :
    b1 ++ b2.filter (fun b => ¬ b ∈ b1) = firstSeenDedup (b1 ++ b2) :=
  confBranches_concat_dedup_go (b1 ++ b2).length b1 b2 le_rfl h1 h2

/-- C9 (amended): when each supplied branch list is itself
duplicate-free, running creation twice accumulates exactly the union of
the two lists in first-seen order, without duplicates. -/
theorem confBranches_union_first_seen (b1 b2 : List String)
    (h1 : b1.Nodup) (h2 : b2.Nodup) :
    confBranchesUpdate (confBranchesUpdate [] (some b1)) (some b2) =
      firstSeenDedup (b1 ++ b2) ∧
    (confBranchesUpdate (confBranchesUpdate [] (some b1)) (some b2)).Nodup := by
  have hb1 : confBranchesUpdate [] (some b1) = b1 := by
    simp [confBranchesUpdate]
  rw [hb1]
  refine ⟨confBranches_concat_dedup b1 b2 h1 h2, ?_⟩
  show (b1 ++ b2.filter fun b => ¬ b ∈ b1).Nodup
  refine List.Nodup.append h1 (h2.filter _) ?_
  intro x hx1 hx2
  have := List.of_mem_filter hx2
  simp only [decide_eq_true_eq] at this
  exact this hx1

/-- Witness for `confBranches_union_first_seen` on `["b1"]`, `["b2"]`. -/
theorem confBranches_union_first_seen_witness :
    confBranchesUpdate (confBranchesUpdate [] (some ["b1"])) (some ["b2"]) =
      firstSeenDedup (["b1"] ++ ["b2"]) ∧
    (confBranchesUpdate (confBranchesUpdate [] (some ["b1"])) (some ["b2"])).Nodup :=
  confBranches_union_first_seen ["b1"] ["b2"] (by decide) (by decide)

/-! ### ParameterCatalog: `ASVDb.__updateBenchmarkJson`, lines 128-201 -/

/-- One benchmark's entry of `benchmarks.json` (the top-level scalar
`"version": 2` key of the document is a constant and is not modelled).
The Python `"type"` field is called `typeName` here. -/
structure CatalogEntry where
  code : String
  name : String
  param_names : List String
  params : List (List String)
  timeout : Nat
  typeName : String
  unit : String
  version : Nat
deriving DecidableEq

/-- `ASVDb.__getDefaultBenchmarkDescrDict`. -/
def getDefaultBenchmarkDescrDict (funcName : String) (paramNames : List String) :
    CatalogEntry :=
  { code := funcName, name := funcName, param_names := paramNames, params := [],
    timeout := 60, typeName := "time", unit := "seconds", version := 2 }

/-- The `ValueError` message raised on an arity mismatch. -/
def arityMsg (funcName : String) (numExisting numNew : Nat) : String :=
  "result for " ++ funcName ++ " had " ++ toString numExisting ++
    " params in benchmarks.json, but new result has " ++ toString numNew ++ " params"

/-- The dedup-append loop of `__updateBenchmarkJson`
(`for i in range(numParams): if newParamValues[i] not in existingParamValues[i]: ...`):
it touches the first `pv.length` columns and keeps any further columns
(defined when `cols` has at least `pv.length` entries). -/
def appendMissingAt {α : Type} [DecidableEq α] (cols : List (List α)) (pv : List α) :
    List (List α) :=
  cols.mapIdx fun i c =>
    match pv[i]? with
    | some v => if v ∈ c then c else c ++ [v]
    | Option.none => c

/-- `ASVDb.__updateBenchmarkJson`, acting on the in-memory catalog
document: look up (or default-create) the entry, refresh its `unit`,
raise `ValueError` when the supplied pair count differs from the stored
`param_names` count, otherwise extend the per-position value columns with
any unseen values.  `Except.error` models the Python exception
propagating before `__writeJsonDictToFile` is reached. -/
def updateBenchmarkJson (cat : List (String × CatalogEntry)) (funcName : String)
    (pairs : List (String × String)) : Except PyErr (List (String × CatalogEntry)) :=
  let newParamNames := pairs.map Prod.fst
  let newParamValues := pairs.map Prod.snd
  let sd := pySetdefault funcName (getDefaultBenchmarkDescrDict funcName newParamNames) cat
  let benchDict := { sd.1 with unit := "seconds" }
  if benchDict.param_names.length ≠ newParamNames.length then
    Except.error (PyErr.valueError
      (arityMsg funcName benchDict.param_names.length newParamNames.length))
  else if newParamValues ∈ cartProd benchDict.params then
    Except.ok (pySet funcName benchDict sd.2)
  else if benchDict.params.length = 0 then
    Except.ok (pySet funcName
      { benchDict with params := newParamValues.map fun v => [v] } sd.2)
  else if benchDict.params.length < newParamValues.length then
    Except.error PyErr.indexError
  else
    Except.ok (pySet funcName
      { benchDict with params := appendMissingAt benchDict.params newParamValues } sd.2)

/-- The persistence behaviour of `__updateBenchmarkJson`: the single
`__writeJsonDictToFile` call happens after all checks, so an exception
leaves the on-disk document as it was. -/
def runUpdateBenchmarkJson (disk : List (String × CatalogEntry)) (funcName : String)
    (pairs : List (String × String)) : List (String × CatalogEntry) × Option PyErr :=
  match updateBenchmarkJson disk funcName pairs with
  | Except.ok d => (d, Option.none)
  | Except.error e => (disk, some e)

/-- Shared helper: with an existing entry and a mismatched pair count,
`__updateBenchmarkJson` raises `ValueError` before any write. -/
theorem updateBenchmarkJson_arity_error (cat : List (String × CatalogEntry))
    (funcName : String) (pairs : List (String × String)) (entry : CatalogEntry)
    (hmem : pyGet funcName cat = some entry)
    (hlen : pairs.length ≠ entry.param_names.length) :
    updateBenchmarkJson cat funcName pairs =
      Except.error (PyErr.valueError
        (arityMsg funcName entry.param_names.length pairs.length)) := by
  have hsd : pySetdefault funcName
      (getDefaultBenchmarkDescrDict funcName (pairs.map Prod.fst)) cat = (entry, cat) := by
    simp [pySetdefault, hmem]
  have hcond : entry.param_names.length ≠ pairs.length := fun h => hlen h.symm
  simp [updateBenchmarkJson, hsd, hcond]

/-- C4: calling the catalog update for an existing benchmark name with a
parameter list of a different length than the stored `param_names` raises
`ValueError` synchronously, and the on-disk catalog document is exactly
what it was before the call. -/
theorem updateBenchmarkJson_arity_mismatch (cat : List (String × CatalogEntry))
    (funcName : String) (pairs : List (String × String)) (entry : CatalogEntry)
    (hmem : pyGet funcName cat = some entry)
    (hlen : pairs.length ≠ entry.param_names.length) :
    updateBenchmarkJson cat funcName pairs =
      Except.error (PyErr.valueError
        (arityMsg funcName entry.param_names.length pairs.length)) ∧
    runUpdateBenchmarkJson cat funcName pairs =
      (cat, some (PyErr.valueError
        (arityMsg funcName entry.param_names.length pairs.length))) := by
  have h := updateBenchmarkJson_arity_error cat funcName pairs entry hmem hlen
  exact ⟨h, by simp [runUpdateBenchmarkJson, h]⟩

/-- Witness for `updateBenchmarkJson_arity_mismatch`: the stored entry
for `"bfs"` has one parameter, the new call supplies two. -/
theorem updateBenchmarkJson_arity_mismatch_witness :
    updateBenchmarkJson [("bfs", getDefaultBenchmarkDescrDict "bfs" ["dataset"])]
        "bfs" [("dataset", "d1"), ("scale", "22")] =
      Except.error (PyErr.valueError (arityMsg "bfs" 1 2)) ∧
    runUpdateBenchmarkJson [("bfs", getDefaultBenchmarkDescrDict "bfs" ["dataset"])]
        "bfs" [("dataset", "d1"), ("scale", "22")] =
      ([("bfs", getDefaultBenchmarkDescrDict "bfs" ["dataset"])],
        some (PyErr.valueError (arityMsg "bfs" 1 2))) :=
  updateBenchmarkJson_arity_mismatch
    [("bfs", getDefaultBenchmarkDescrDict "bfs" ["dataset"])]
    "bfs" [("dataset", "d1"), ("scale", "22")]
    (getDefaultBenchmarkDescrDict "bfs" ["dataset"]) (by decide) (by decide)

/-! ### LockCoordinator: `ASVDb.__updateOtherLockfileTimes` (lines
379-408) and `ASVDb.__getLock` (lines 424-460)

The filesystem is driven by an explicit schedule of directory scans:
each `LockScan` gives the wall-clock time of one `glob` call and the
marker files other processes have on disk at that moment.  Files this
acquirer has itself deleted are subtracted before the scan is used
(marker names are unique, so a deleted marker never reappears).  The
sleeps between scans (`time.sleep(0.2)` in the polling loop) happen
between consecutive schedule entries. -/

/-- One directory scan: the time `glob` runs and the other processes'
marker files present (this holder's own marker is recognised by name and
skipped, as in the source). -/
structure LockScan where
  now : Nat
  present : List String
deriving DecidableEq

/-- `lockFileTimeout = 5  # seconds` (line 76). -/
def lockFileTimeout : Nat := 5

/-- `ASVDb.__updateOtherLockfileTimes`: drop bookkeeping entries for
markers no longer on disk, record the discovery time of new markers
(`setdefault(lockFile, now)`), and collect the markers first seen more
than `timeout` ago as expired.  Returns the updated
`lockFileTimes` dict and the expired list handed to `__removeFiles`.
Note an expired marker stays in the returned dict — it only drops out on
the next scan, once it is gone from disk. -/
def updateOtherLockfileTimes (own : String) (timeout : Nat) (allFiles : List String)
    (now : Nat) (times : List (String × Nat)) : List (String × Nat) × List String :=
  let times1 := times.filter fun p => p.1 ∈ allFiles
  allFiles.foldl
    (fun acc f =>
      if f = own then acc
      else
        match pyGet f acc.1 with
        | some t0 => if now - t0 > timeout then (acc.1, acc.2 ++ [f]) else acc
        | Option.none => (acc.1 ++ [(f, now)], acc.2))
    (times1, [])

/-- Outcome of a `__getLock` call driven by a finite scan schedule. -/
inductive LockOutcome
  | acquired (deleted : List String) (polls : Nat)
  | raised (err : PyErr) (ownMarkerRemoved : Bool) (deleted : List String)
  | fuelOut (polls : Nat)
deriving DecidableEq

/-- The module-level imports of `src/asvdb/asvdb.py` (lines 1-6). -/
def asvdbModuleImports : List String := ["json", "os", "path", "itertools", "glob", "time"]

/-- The backoff `time.sleep((int(3 * random.random()) + 1) + random.random())`
on line 458: evaluating the global name `random` raises `NameError` when
the module never imports it (Python name resolution, modelled over
`asvdbModuleImports`); otherwise the sleep lasts some bounded number of
seconds. -/
def backoffSleepSeconds : Except PyErr Nat :=
  if "random" ∈ asvdbModuleImports then Except.ok 1
  else Except.error (PyErr.nameError "random")

/-- `ASVDb.__getLock`, one schedule entry per
`__updateOtherLockfileTimes` call.  `justCreated = true` means this
holder's marker was created right before the current scan (the
post-create re-scan of the race check); `polls` counts the scans
performed so far.  On a clean post-create re-scan the lock is held; on a
raced re-scan the code removes its own marker (`__releaseLock`) and then
evaluates the backoff expression. -/
def getLockAux (own : String) (timeout : Nat) :
    List LockScan → List (String × Nat) → List String → Bool → Nat → LockOutcome
  | [], _, _, _, polls => LockOutcome.fuelOut polls
  | s :: rest, times, deleted, justCreated, polls =>
    let seen := s.present.filter fun f => ¬ f ∈ deleted
    let upd := updateOtherLockfileTimes own timeout seen s.now times
    let deleted' := deleted ++ upd.2
    if justCreated then
      if upd.1 = [] then LockOutcome.acquired deleted' polls
      else
        match backoffSleepSeconds with
        | Except.error e => LockOutcome.raised e true deleted'
        | Except.ok _ => getLockAux own timeout rest upd.1 deleted' false (polls + 1)
    else
      if upd.1 = [] then getLockAux own timeout rest upd.1 deleted' true (polls + 1)
      else getLockAux own timeout rest upd.1 deleted' false (polls + 1)

/-- `__getLock` from its initial state (`otherLockFileTimes = {}`). -/
def getLockRun (own : String) (scans : List LockScan) : LockOutcome :=
  getLockAux own lockFileTimeout scans [] [] false 0

/-- C7: another holder's marker `f` is first seen at time 0.  While it
has been observed for no longer than the 5-second staleness timeout
(the scan at time `b ≤ 5`), the acquirer keeps polling and rescanning
and creates no marker of its own; at the first scan past the timeout
(time `c > 5`) it deletes the other marker unilaterally, and then
proceeds to acquire the lock rather than blocking indefinitely: it
creates its own marker after the 4th scan and holds the lock after the
clean re-scan, with `f` the only file it deleted. -/
theorem getLock_poll_and_staleness (own f : String) (b c d e : Nat)
    (hfo : f ≠ own) (hb : b ≤ lockFileTimeout) (hc : lockFileTimeout < c) :
    getLockRun own [⟨0, [f]⟩, ⟨b, [f]⟩, ⟨c, [f]⟩, ⟨d, [f]⟩, ⟨e, [f]⟩] =
      LockOutcome.acquired [f] 4 := by
  have hb' : ¬ lockFileTimeout < b := by omega
  have hc' : lockFileTimeout < c := by omega
  simp [getLockRun, getLockAux, updateOtherLockfileTimes, pyGet, hfo, hb', hc',
    List.filter]

/-- C3 (failing input): the race branch of `__getLock`.  The first scan
is clean, so this holder creates its marker; the immediate re-scan then
observes another holder's marker.  The code removes its own marker
(`__releaseLock`) and then evaluates
`time.sleep((int(3 * random.random()) + 1) + random.random())` — but the
module never imports `random`, so instead of backing off and retrying
the call raises `NameError` to the caller. -/
theorem getLock_race_raises_nameError :
    getLockRun "k1" [⟨0, []⟩, ⟨0, ["k2"]⟩] =
      LockOutcome.raised (PyErr.nameError "random") true [] ∧
    backoffSleepSeconds = Except.error (PyErr.nameError "random") :=
  ⟨rfl, rfl⟩

/-- Witness for `getLock_poll_and_staleness`: scans at times
0, 4, 6, 7, 8 with the foreign marker `"k2"`. -/
theorem getLock_poll_and_staleness_witness :
    ("k2" : String) ≠ "k1" ∧
    getLockRun "k1" [⟨0, ["k2"]⟩, ⟨4, ["k2"]⟩, ⟨6, ["k2"]⟩, ⟨7, ["k2"]⟩, ⟨8, ["k2"]⟩] =
      LockOutcome.acquired ["k2"] 4 :=
  ⟨by decide,
    getLock_poll_and_staleness "k1" "k2" 4 6 7 8 (by decide) (by decide) (by decide)⟩

/-! ### Recorder: `ASVDb.addResult`, lines 119-125 -/

/-- The per-benchmark `results` dict of one result-grid document,
updated by `__updateResultJson` via
`resultDict = allResultsDict.setdefault(benchmarkResult.name, {})`
followed by the grid `merge`. -/
def updateResultJsonDoc {ρ : Type} (grids : List (String × GridEntry ρ))
    (funcName : String) (pairs : List (String × String)) (res : Option ρ) :
    Except PyErr (List (String × GridEntry ρ)) :=
  let sd := pySetdefault funcName ⟨[], []⟩ grids
  match merge sd.1 (pairs.map Prod.snd) res with
  | some g' => Except.ok (pySet funcName g' sd.2)
  | Option.none => Except.error PyErr.indexError

/-- The store state `addResult` touches: the marker files in the store
root, the `benchmarks.json` catalog and the per-benchmark grids of the
result document selected by the environment (machine.json carries no
claim-relevant state and is omitted). -/
structure DbState (ρ : Type) where
  lockFiles : List String
  benchmarks : List (String × CatalogEntry)
  resultGrids : List (String × GridEntry ρ)
deriving DecidableEq

/-- `ASVDb.addResult`: `__getLock` (modelled here in the uncontended
case: the scan loop finds no other markers and creates this holder's
marker, cf. `getLockRun`), then — when `__checkForWritePermission`
grants the write (`doWrite`) — `__updateBenchmarkJson` and
`__updateResultJson`, and finally `__releaseLock`.  There is no
`try/finally`: an exception in an update propagates out of `addResult`
and `__releaseLock` is never reached, so the holder's marker file stays
in the store root. -/
def addResult {ρ : Type} (own : String) (doWrite : Bool) (st : DbState ρ)
    (funcName : String) (pairs : List (String × String)) (res : Option ρ) :
    DbState ρ × Option PyErr :=
  let st1 : DbState ρ := { st with lockFiles := st.lockFiles ++ [own] }
  if doWrite then
    match updateBenchmarkJson st1.benchmarks funcName pairs with
    | Except.error e => (st1, some e)
    | Except.ok cat =>
      match updateResultJsonDoc st1.resultGrids funcName pairs res with
      | Except.error e => ({ st1 with benchmarks := cat }, some e)
      | Except.ok grids =>
        ({ lockFiles := st1.lockFiles.erase own, benchmarks := cat,
           resultGrids := grids }, Option.none)
  else ({ st1 with lockFiles := st1.lockFiles.erase own }, Option.none)

/-- C10: when the catalog update inside `addResult` raises the
arity-mismatch `ValueError`, the error propagates to the caller, the
holder's marker file is still present in the store root afterwards
(release never ran), and neither the catalog nor the result document
was changed. -/
theorem addResult_arity_error_keeps_lock {ρ : Type} (st : DbState ρ) (own : String)
    (funcName : String) (pairs : List (String × String)) (res : Option ρ)
    (entry : CatalogEntry)
    (hmem : pyGet funcName st.benchmarks = some entry)
    (hlen : pairs.length ≠ entry.param_names.length) :
    (addResult own true st funcName pairs res).2 =
      some (PyErr.valueError
        (arityMsg funcName entry.param_names.length pairs.length)) ∧
    own ∈ (addResult own true st funcName pairs res).1.lockFiles ∧
    (addResult own true st funcName pairs res).1.benchmarks = st.benchmarks ∧
    (addResult own true st funcName pairs res).1.resultGrids = st.resultGrids := by
  have herr := updateBenchmarkJson_arity_error st.benchmarks funcName pairs entry hmem hlen
  refine ⟨?_, ?_, ?_, ?_⟩ <;>
    simp [addResult, herr]

/-- Witness for `addResult_arity_error_keeps_lock`. -/
theorem addResult_arity_error_keeps_lock_witness :
    (addResult "k1" true
        (⟨[], [("bfs", getDefaultBenchmarkDescrDict "bfs" ["dataset"])], []⟩ :
          DbState Nat)
        "bfs" [("dataset", "d1"), ("scale", "22")] (some 7)).2 =
      some (PyErr.valueError (arityMsg "bfs" 1 2)) ∧
    "k1" ∈ (addResult "k1" true
        (⟨[], [("bfs", getDefaultBenchmarkDescrDict "bfs" ["dataset"])], []⟩ :
          DbState Nat)
        "bfs" [("dataset", "d1"), ("scale", "22")] (some 7)).1.lockFiles ∧
    (addResult "k1" true
        (⟨[], [("bfs", getDefaultBenchmarkDescrDict "bfs" ["dataset"])], []⟩ :
          DbState Nat)
        "bfs" [("dataset", "d1"), ("scale", "22")] (some 7)).1.benchmarks =
      [("bfs", getDefaultBenchmarkDescrDict "bfs" ["dataset"])] ∧
    (addResult "k1" true
        (⟨[], [("bfs", getDefaultBenchmarkDescrDict "bfs" ["dataset"])], []⟩ :
          DbState Nat)
        "bfs" [("dataset", "d1"), ("scale", "22")] (some 7)).1.resultGrids = [] :=
  addResult_arity_error_keeps_lock
    ⟨[], [("bfs", getDefaultBenchmarkDescrDict "bfs" ["dataset"])], []⟩
    "k1" "bfs" [("dataset", "d1"), ("scale", "22")] (some 7)
    (getDefaultBenchmarkDescrDict "bfs" ["dataset"]) (by decide) (by decide)

end Asvdb
